import Mathlib

/- Shallow embedding of the redirect-service worker: the identifier
validators and index helpers of utils.ts, the admin operations of
admin.ts (createRedirect, editRedirect, deleteRedirect, listRedirects),
the public resolver of redirect.ts, and the single-record admin GET
route of index.ts.  The three KV namespaces (REDIRECTS, CLICKS, INDEX)
are modelled as total maps; stored record values carry their JSON-parse
outcome; every store write is also logged in a trace so that mutation
ordering is observable.  URL parsing (the JS `new URL` constructor) is
abstracted as a boolean oracle passed to the operations. -/

/-- Characters accepted by the identifier regex character class of
utils.ts: capital letters, small letters, digits, underscore, hyphen. -/
def isWordChar (c : Char) : Bool :=
  ('A' ≤ c && c ≤ 'Z') || ('a' ≤ c && c ≤ 'z') || ('0' ≤ c && c ≤ '9') || c == '_' || c == '-'

/-- validateSlug of utils.ts: the slug must match the pattern of 1 to 128
word characters. -/
def validateSlug (s : String) : Bool :=
  decide (1 ≤ s.length) && decide (s.length ≤ 128) && s.data.all isWordChar

/-- validateGroup of utils.ts: 1 to 4 word characters.  The repository
holds two variants of this function (maximum length 4 in the utils file
that also defines the index helpers, 32 in the other); nothing below
depends on the chosen bound. -/
def validateGroup (s : String) : Bool :=
  decide (1 ≤ s.length) && decide (s.length ≤ 4) && s.data.all isWordChar

/-- makeKey of utils.ts: the composite key is group, a slash, slug. -/
def makeKey (group slug : String) : String :=
  group ++ "/" ++ slug

/-- Partition name of the per-creator index, as built inline in admin.ts. -/
def userKey (createdBy : String) : String :=
  "__USER__:" ++ createdBy

/-- JS truthiness of an optional string: absent and empty are falsy. -/
def truthy (o : Option String) : Bool :=
  match o with
  | some s => s != ""
  | none => false

/-- Whitespace skipped by the JS parseInt function (ASCII part). -/
def isSpaceChar (c : Char) : Bool :=
  c == ' ' || c == '\t' || c == '\n' || c == '\r'

/-- Value of a list of decimal digit characters, most significant first. -/
def digitsToNat (ds : List Char) : Nat :=
  ds.foldl (fun a c => a * 10 + (c.toNat - 48)) 0

/-- Longest leading run of decimal digits, or failure when there is none:
the digit-consuming phase of the JS parseInt function. -/
def digitsPrefixVal (cs : List Char) : Option Nat :=
  let ds := cs.takeWhile Char.isDigit
  if ds.isEmpty then none else some (digitsToNat ds)

/-- Sign handling of the JS parseInt function after whitespace removal. -/
def jsParseIntCore : List Char → Option Int
  | [] => none
  | c :: rest =>
    if c == '-' then Option.map (fun n : Nat => -(n : Int)) (digitsPrefixVal rest)
    else if c == '+' then Option.map (fun n : Nat => (n : Int)) (digitsPrefixVal rest)
    else Option.map (fun n : Nat => (n : Int)) (digitsPrefixVal (c :: rest))

/-- Model of the JS parseInt with radix 10: skip whitespace, optional
sign, then the longest digit run; no digits means NaN, modelled as none. -/
def jsParseInt10 (s : String) : Option Int :=
  jsParseIntCore (s.data.dropWhile isSpaceChar)

/-- Decimal digit character for a value below ten. -/
def digitChar (n : Nat) : Char :=
  if n = 0 then '0' else if n = 1 then '1' else if n = 2 then '2'
  else if n = 3 then '3' else if n = 4 then '4' else if n = 5 then '5'
  else if n = 6 then '6' else if n = 7 then '7' else if n = 8 then '8' else '9'

/-- Decimal digit list of a natural number with explicit fuel; any fuel
above the value is enough. -/
def natToDigitsAux (fuel n : Nat) : List Char :=
  match fuel with
  | 0 => []
  | f + 1 => if n < 10 then [digitChar n] else natToDigitsAux f (n / 10) ++ [digitChar (n % 10)]

/-- Decimal digit list of a natural number, most significant first. -/
def natToDigits (n : Nat) : List Char :=
  natToDigitsAux (n + 1) n

/-- Decimal string of a natural number. -/
def natToString (n : Nat) : String :=
  ⟨natToDigits n⟩

/-- Model of the JS number-to-string conversion for integer values. -/
def jsNumToString (i : Int) : String :=
  if i < 0 then "-" ++ natToString i.natAbs else natToString i.natAbs

/-- RedirectEntry of types.ts. -/
structure RedirectEntry where
  target : String
  group : String
  slug : String
  createdBy : String
  createdAt : String
  updatedAt : Option String
  title : Option String
  notes : Option String
deriving DecidableEq

/-- A stored value of the RECORDS namespace together with its JSON-parse
outcome: values written by the worker are stringified entries and parse
back; externally corrupted values fail to parse. -/
inductive RawRecord where
  | good (entry : RedirectEntry)
  | bad (raw : String)
deriving DecidableEq

/-- Owner of a stored record, when it parses. -/
def recordOwner : RawRecord → Option String
  | RawRecord.good e => some e.createdBy
  | RawRecord.bad _ => none

/-- The three KV namespaces.  An index partition reads as the empty list
when absent, exactly as getIndex of utils.ts returns [] for a missing
key, so partitions are modelled directly as lists. -/
@[ext]
structure Store where
  records : String → Option RawRecord
  clicks : String → Option String
  index : String → List String

/-- Store with no records, no counters and all partitions empty. -/
def Store.empty : Store :=
  { records := fun _ => none, clicks := fun _ => none, index := fun _ => [] }

/-- One logged KV write: a put or delete on RECORDS or CLICKS, or a
partition rewrite on INDEX. -/
inductive KVEvent where
  | recPut (key : String)
  | recDel (key : String)
  | clkPut (key : String)
  | clkDel (key : String)
  | idxPut (partition : String)
deriving DecidableEq

/-- A store paired with the ordered trace of writes performed so far. -/
structure Eff where
  store : Store
  trace : List KVEvent

/-- Effect state at the start of a request. -/
def Eff.start (s : Store) : Eff :=
  { store := s, trace := [] }

/-- REDIRECTS.put. -/
def putRecord (e : Eff) (k : String) (r : RawRecord) : Eff :=
  { store := { e.store with records := fun q => if q = k then some r else e.store.records q },
    trace := e.trace ++ [KVEvent.recPut k] }

/-- REDIRECTS.delete. -/
def deleteRecord (e : Eff) (k : String) : Eff :=
  { store := { e.store with records := fun q => if q = k then none else e.store.records q },
    trace := e.trace ++ [KVEvent.recDel k] }

/-- CLICKS.put. -/
def putClicks (e : Eff) (k : String) (v : String) : Eff :=
  { store := { e.store with clicks := fun q => if q = k then some v else e.store.clicks q },
    trace := e.trace ++ [KVEvent.clkPut k] }

/-- CLICKS.delete. -/
def deleteClicks (e : Eff) (k : String) : Eff :=
  { store := { e.store with clicks := fun q => if q = k then none else e.store.clicks q },
    trace := e.trace ++ [KVEvent.clkDel k] }

/-- addToIndex of utils.ts: read the partition, push the value and save
unless it is already a member. -/
def addToIndex (e : Eff) (p v : String) : Eff :=
  if v ∈ e.store.index p then e
  else
    { store := { e.store with index := fun q => if q = p then e.store.index p ++ [v] else e.store.index q },
      trace := e.trace ++ [KVEvent.idxPut p] }

/-- removeFromIndex of utils.ts: read the partition, filter the value
out and save unconditionally. -/
def removeFromIndex (e : Eff) (p v : String) : Eff :=
  { store := { e.store with index := fun q => if q = p then (e.store.index p).filter (fun x => x != v) else e.store.index q },
    trace := e.trace ++ [KVEvent.idxPut p] }

/-- Fields of the JSON body accepted by createRedirect; each may be
absent. -/
structure CreateBody where
  group : Option String
  slug : Option String
  target : Option String
  createdBy : Option String
  title : Option String
  notes : Option String
deriving DecidableEq

/-- createRedirect of admin.ts.  Steps in source order: required-field
truthiness, group, slug and URL validation, conflict check, add the key
to the global and the per-creator index, write the record, then
initialise the click counter to zero. -/
def createRedirect (validURL : String → Bool) (now : String)
    (body : Option CreateBody) (s : Store) : Nat × Eff :=
  let e0 := Eff.start s
  match body with
  | none => (400, e0)
  | some b =>
    if !(truthy b.group && truthy b.slug && truthy b.target && truthy b.createdBy) then (400, e0)
    else if !(validateGroup (b.group.getD "")) then (400, e0)
    else if !(validateSlug (b.slug.getD "")) then (400, e0)
    else if !(validURL (b.target.getD "")) then (400, e0)
    else
      let key := makeKey (b.group.getD "") (b.slug.getD "")
      if (s.records key).isSome then (409, e0)
      else
        let e1 := addToIndex e0 "__ALL__" key
        let e2 := addToIndex e1 (userKey (b.createdBy.getD "")) key
        let entry : RedirectEntry :=
          { target := b.target.getD "", group := b.group.getD "", slug := b.slug.getD "",
            createdBy := b.createdBy.getD "", createdAt := now, updatedAt := some now,
            title := b.title, notes := b.notes }
        let e3 := putRecord e2 key (RawRecord.good entry)
        let e4 := putClicks e3 key "0"
        (201, e4)

/-- Fields of the JSON body accepted by editRedirect.  createdBy is
carried to model a caller supplying it, but it is not among the allowed
editable fields of admin.ts and is never read by the operation. -/
structure PatchBody where
  target : Option String
  title : Option String
  notes : Option String
  group : Option String
  slug : Option String
  createdBy : Option String
deriving DecidableEq

/-- True when none of the five allowed editable fields is present, which
is exactly when admin.ts answers Nothing to update. -/
def patchIsEmpty (b : PatchBody) : Bool :=
  b.target.isNone && b.title.isNone && b.notes.isNone && b.group.isNone && b.slug.isNone

/-- The target check of editRedirect fires only on a truthy target
value: a present target is re-parsed as a URL only when non-empty. -/
def badTargetField (validURL : String → Bool) (b : PatchBody) : Bool :=
  match b.target with
  | some t => t != "" && !(validURL t)
  | none => false

/-- The group check of editRedirect fires only on a truthy group value. -/
def badGroupField (b : PatchBody) : Bool :=
  match b.group with
  | some g => g != "" && !(validateGroup g)
  | none => false

/-- The slug check of editRedirect fires only on a truthy slug value. -/
def badSlugField (b : PatchBody) : Bool :=
  match b.slug with
  | some g => g != "" && !(validateSlug g)
  | none => false

/-- The merged record written by editRedirect: the parsed record spread
first, the present patch fields over it, group and slug forced to the
resolved new values, createdBy and createdAt untouched, updatedAt
refreshed. -/
def mergeEntry (now : String) (parsed : RedirectEntry) (b : PatchBody) : RedirectEntry :=
  { target := b.target.getD parsed.target,
    group := b.group.getD parsed.group,
    slug := b.slug.getD parsed.slug,
    createdBy := parsed.createdBy,
    createdAt := parsed.createdAt,
    updatedAt := some now,
    title := match b.title with | some t => some t | none => parsed.title,
    notes := match b.notes with | some t => some t | none => parsed.notes }

/-- editRedirect of admin.ts.  Source order: existence check, body
check, parse of the stored record (an unparseable record throws, which
the top-level handler turns into a 500), empty-patch check, field
validation, collision check, then either a same-key overwrite or the
rename sequence: write new record, delete old record, move a truthy
click counter, and rewrite the global then the per-creator partition. -/
def editRedirect (validURL : String → Bool) (now : String) (group slug : String)
    (body : Option PatchBody) (s : Store) : Nat × Eff :=
  let e0 := Eff.start s
  let oldKey := makeKey group slug
  match s.records oldKey with
  | none => (404, e0)
  | some raw =>
    match body with
    | none => (400, e0)
    | some b =>
      match raw with
      | RawRecord.bad _ => (500, e0)
      | RawRecord.good parsed =>
        if patchIsEmpty b then (400, e0)
        else if badTargetField validURL b then (400, e0)
        else if badGroupField b then (400, e0)
        else if badSlugField b then (400, e0)
        else
          let newKey := makeKey (b.group.getD parsed.group) (b.slug.getD parsed.slug)
          if newKey ≠ oldKey ∧ (s.records newKey).isSome then (409, e0)
          else
            let updated := mergeEntry now parsed b
            if newKey = oldKey then
              (200, putRecord e0 oldKey (RawRecord.good updated))
            else
              let e1 := putRecord e0 newKey (RawRecord.good updated)
              let e2 := deleteRecord e1 oldKey
              let e3 :=
                match s.clicks oldKey with
                | some c => if c = "" then e2 else deleteClicks (putClicks e2 newKey c) oldKey
                | none => e2
              let e4 := removeFromIndex e3 "__ALL__" oldKey
              let e5 := addToIndex e4 "__ALL__" newKey
              let e6 := removeFromIndex e5 (userKey parsed.createdBy) oldKey
              let e7 := addToIndex e6 (userKey parsed.createdBy) newKey
              (200, e7)

/-- deleteRedirect of admin.ts.  Source order: existence check, parse of
the stored record (an unparseable record throws, surfaced as 500),
removal from the global then the per-creator partition, record delete,
then best-effort counter delete. -/
def deleteRedirect (group slug : String) (s : Store) : Nat × Eff :=
  let e0 := Eff.start s
  let key := makeKey group slug
  match s.records key with
  | none => (404, e0)
  | some (RawRecord.bad _) => (500, e0)
  | some (RawRecord.good parsed) =>
    let e1 := removeFromIndex e0 "__ALL__" key
    let e2 := removeFromIndex e1 (userKey parsed.createdBy) key
    let e3 := deleteRecord e2 key
    let e4 := deleteClicks e3 key
    (200, e4)

/-- Keys of the requested page in listRedirects: the slice of the global
partition from (page - 1) times pageSize, of length at most pageSize. -/
def listPageKeys (s : Store) (page pageSize : Nat) : List String :=
  ((s.index "__ALL__").drop ((page - 1) * pageSize)).take pageSize

/-- True exactly when a stored value is present but fails to parse, the
case where JSON.parse throws inside the list mapper. -/
def recordIsBad (o : Option RawRecord) : Bool :=
  match o with
  | some (RawRecord.bad _) => true
  | _ => false

/-- Data attached to a page member: the parsed record when the stored
value is present and parses, null when it is absent. -/
def parsedData (o : Option RawRecord) : Option RedirectEntry :=
  match o with
  | some (RawRecord.good e) => some e
  | _ => none

/-- Outcome of listRedirects: a page, or the rejection of the whole
request when some member of the page fails to parse. -/
inductive ListOutcome where
  | ok (page pageSize totalItems totalPages : Nat) (items : List (String × Option RedirectEntry))
  | thrown
deriving DecidableEq

/-- listRedirects of admin.ts: totals computed from the whole global
partition, the page sliced from it, each member fetched; a member whose
stored value fails to parse throws out of the Promise.all and rejects
the whole request. -/
def listRedirects (s : Store) (page pageSize : Nat) : ListOutcome :=
  let allKeys := s.index "__ALL__"
  let totalPages := (allKeys.length + pageSize - 1) / pageSize
  let pageKeys := listPageKeys s page pageSize
  if pageKeys.any (fun k => recordIsBad (s.records k)) then ListOutcome.thrown
  else ListOutcome.ok page pageSize allKeys.length totalPages
    (pageKeys.map (fun k => (k, parsedData (s.records k))))

/-- Effective counter string read by the worker: absent and empty read
as the digit zero. -/
def clicksOrZero (o : Option String) : String :=
  match o with
  | some c => if c = "" then "0" else c
  | none => "0"

/-- Outcome of the single-record admin GET route of index.ts. -/
inductive GetOneOutcome where
  | badPath
  | notFound
  | thrown
  | ok (entry : RedirectEntry) (clicks : Option Int)
deriving DecidableEq

/-- The GET branch of the admin route in index.ts: path validation, a
404 on a missing record, and an unguarded JSON.parse whose failure
escapes to the top-level catch and answers 500. -/
def adminGetOne (s : Store) (group slug : String) : GetOneOutcome :=
  if !(validateGroup group && validateSlug slug) then GetOneOutcome.badPath
  else
    match s.records (makeKey group slug) with
    | none => GetOneOutcome.notFound
    | some (RawRecord.bad _) => GetOneOutcome.thrown
    | some (RawRecord.good e) =>
      GetOneOutcome.ok e (jsParseInt10 (clicksOrZero (s.clicks (makeKey group slug))))

/-- The counter value written by the increment expression of
redirect.ts: parseInt of the effective current value plus one; when the
stored value has no leading digits the sum is NaN and the string NaN is
written back. -/
def incrementValue (cur : Option String) : String :=
  match jsParseInt10 (clicksOrZero cur) with
  | some n => jsNumToString (n + 1)
  | none => "NaN"

/-- Outcome of the public resolver of redirect.ts.  thrown is an
increment-read rejection escaping to the top-level catch. -/
inductive ResolveOutcome where
  | invalid
  | notFound
  | corrupted
  | thrown
  | redirect (target : String)
deriving DecidableEq

/-- handlePublicRedirect of redirect.ts.  The counter read is awaited
inside the increment expression, so a failing read throws before the
redirect is built; the counter write is fire-and-forget and its failure
only loses the increment.  The two booleans inject those two failures. -/
def handlePublicRedirect (s : Store) (clkGetFails clkPutFails : Bool)
    (parts : List String) : ResolveOutcome × Store :=
  match parts with
  | g :: sl :: _ =>
    let key := makeKey g sl
    match s.records key with
    | none => (ResolveOutcome.notFound, s)
    | some (RawRecord.bad _) => (ResolveOutcome.corrupted, s)
    | some (RawRecord.good e) =>
      if clkGetFails then (ResolveOutcome.thrown, s)
      else if clkPutFails then (ResolveOutcome.redirect e.target, s)
      else (ResolveOutcome.redirect e.target,
        { s with clicks := fun q => if q = key then some (incrementValue (s.clicks key)) else s.clicks q })
  | _ => (ResolveOutcome.invalid, s)

/-- Sequential, failure-free public resolutions of the same path. -/
def resolveIter (parts : List String) : Nat → Store → Store
  | 0, s => s
  | n + 1, s => resolveIter parts n (handlePublicRedirect s false false parts).2

/-- Multiplicity of a composite key in a partition. -/
def keyCount (s : Store) (p k : String) : Nat :=
  (s.index p).count k

/-- Multiplicity the global partition must show for a stored value. -/
def expectedAll : Option RawRecord → Nat
  | some _ => 1
  | none => 0

/-- Multiplicity a per-creator partition must show for a stored value. -/
def expectedUser : Option RawRecord → String → Nat
  | some (RawRecord.good e), u => if e.createdBy = u then 1 else 0
  | _, _ => 0

/-- Index consistency: every key sits in the global partition exactly as
often as it has a record, once in the partition of its owner, and
nowhere else. -/
def IndexConsistent (s : Store) : Prop :=
  ∀ k : String, keyCount s "__ALL__" k = expectedAll (s.records k) ∧
    ∀ u : String, keyCount s (userKey u) k = expectedUser (s.records k) u

/-- Concrete URL oracle used for concrete evaluations. -/
def demoURLCheck (t : String) : Bool :=
  t == "https://example.com" || t == "https://example.org"

/-- A well-formed stored entry. -/
def demoEntry : RedirectEntry :=
  { target := "https://example.com", group := "g", slug := "s", createdBy := "u1",
    createdAt := "t0", updatedAt := some "t0", title := none, notes := none }

/-- A consistent one-record store. -/
def demoStore : Store :=
  { records := fun q => if q = "g/s" then some (RawRecord.good demoEntry) else none,
    clicks := fun q => if q = "g/s" then some "0" else none,
    index := fun q => if q = "__ALL__" then ["g/s"] else if q = "__USER__:u1" then ["g/s"] else [] }

/-- A create body accepted by every validation step. -/
def demoCreateBody : CreateBody :=
  { group := some "g", slug := some "s", target := some "https://example.com",
    createdBy := some "u1", title := none, notes := none }

/-- A store holding one corrupted record listed in the global index. -/
def corruptStore : Store :=
  { records := fun q => if q = "g/a" then some (RawRecord.bad "oops") else none,
    clicks := fun _ => none,
    index := fun q => if q = "__ALL__" then ["g/a"] else [] }

/-- The demo store with a non-numeric click counter. -/
def junkClicksStore : Store :=
  { records := fun q => if q = "g/s" then some (RawRecord.good demoEntry) else none,
    clicks := fun q => if q = "g/s" then some "abc" else none,
    index := fun q => if q = "__ALL__" then ["g/s"] else if q = "__USER__:u1" then ["g/s"] else [] }

/-- A store whose global partition has three members with no records,
used to exercise pagination arithmetic. -/
def pagedStore : Store :=
  { records := fun _ => none,
    clicks := fun _ => none,
    index := fun q => if q = "__ALL__" then ["a", "b", "c"] else [] }

/-- A patch carrying only an empty-string target. -/
def emptyTargetPatch : PatchBody :=
  { target := some "", title := none, notes := none, group := none, slug := none, createdBy := none }

/-- A patch carrying only a non-empty target the URL oracle rejects. -/
def invalidTargetPatch : PatchBody :=
  { target := some "nota", title := none, notes := none, group := none, slug := none, createdBy := none }

/-- A patch renaming the slug only. -/
def renamePatch : PatchBody :=
  { target := none, title := none, notes := none, group := none, slug := some "s2", createdBy := none }

/-- A patch touching the title and smuggling in a createdBy value. -/
def ownerPatch : PatchBody :=
  { target := none, title := some "new title", notes := none, group := none, slug := none,
    createdBy := some "intruder" }

/-- The per-creator partition names never collide with the global one. -/
theorem userKey_ne_all (u : String) : userKey u ≠ "__ALL__" := by
  intro h
  have h1 := congrArg String.length h
  rw [userKey, String.length_append] at h1
  have h2 : ("__USER__:" : String).length = 9 := by decide
  have h3 : ("__ALL__" : String).length = 7 := by decide
  omega

/-- Distinct creators own distinct partitions. -/
theorem userKey_inj {u v : String} (h : userKey u = userKey v) : u = v := by
  have hd := congrArg String.data h
  rw [userKey, userKey, String.data_append, String.data_append] at hd
  have h2 := List.append_cancel_left hd
  cases u
  cases v
  simpa using congrArg String.mk h2

theorem putRecord_index (e : Eff) (k : String) (r : RawRecord) :
    (putRecord e k r).store.index = e.store.index := rfl

theorem putRecord_clicks (e : Eff) (k : String) (r : RawRecord) :
    (putRecord e k r).store.clicks = e.store.clicks := rfl

theorem putRecord_records_self (e : Eff) (k : String) (r : RawRecord) :
    (putRecord e k r).store.records k = some r := by
  simp [putRecord]

theorem putRecord_records_ne (e : Eff) (k : String) (r : RawRecord) (q : String) (h : q ≠ k) :
    (putRecord e k r).store.records q = e.store.records q := by
  simp [putRecord, h]

theorem deleteRecord_index (e : Eff) (k : String) :
    (deleteRecord e k).store.index = e.store.index := rfl

theorem deleteRecord_clicks (e : Eff) (k : String) :
    (deleteRecord e k).store.clicks = e.store.clicks := rfl

theorem deleteRecord_records_self (e : Eff) (k : String) :
    (deleteRecord e k).store.records k = none := by
  simp [deleteRecord]

theorem deleteRecord_records_ne (e : Eff) (k q : String) (h : q ≠ k) :
    (deleteRecord e k).store.records q = e.store.records q := by
  simp [deleteRecord, h]

theorem putClicks_index (e : Eff) (k v : String) :
    (putClicks e k v).store.index = e.store.index := rfl

theorem putClicks_records (e : Eff) (k v : String) :
    (putClicks e k v).store.records = e.store.records := rfl

theorem deleteClicks_index (e : Eff) (k : String) :
    (deleteClicks e k).store.index = e.store.index := rfl

theorem deleteClicks_records (e : Eff) (k : String) :
    (deleteClicks e k).store.records = e.store.records := rfl

theorem addToIndex_records (e : Eff) (p v : String) :
    (addToIndex e p v).store.records = e.store.records := by
  unfold addToIndex
  split <;> rfl

theorem addToIndex_clicks (e : Eff) (p v : String) :
    (addToIndex e p v).store.clicks = e.store.clicks := by
  unfold addToIndex
  split <;> rfl

theorem addToIndex_of_mem (e : Eff) (p v : String) (h : v ∈ e.store.index p) :
    addToIndex e p v = e := by
  simp [addToIndex, h]

theorem addToIndex_index_self (e : Eff) (p v : String) (h : v ∉ e.store.index p) :
    (addToIndex e p v).store.index p = e.store.index p ++ [v] := by
  simp [addToIndex, h]

theorem addToIndex_index_ne (e : Eff) (p v q : String) (h : q ≠ p) :
    (addToIndex e p v).store.index q = e.store.index q := by
  unfold addToIndex
  split
  · rfl
  · simp [h]

theorem removeFromIndex_records (e : Eff) (p v : String) :
    (removeFromIndex e p v).store.records = e.store.records := rfl

theorem removeFromIndex_clicks (e : Eff) (p v : String) :
    (removeFromIndex e p v).store.clicks = e.store.clicks := rfl

theorem removeFromIndex_index_self (e : Eff) (p v : String) :
    (removeFromIndex e p v).store.index p = (e.store.index p).filter (fun x => x != v) := by
  simp [removeFromIndex]

theorem removeFromIndex_index_ne (e : Eff) (p v q : String) (h : q ≠ p) :
    (removeFromIndex e p v).store.index q = e.store.index q := by
  simp [removeFromIndex, h]

theorem count_append_self (l : List String) (v : String) :
    (l ++ [v]).count v = l.count v + 1 := by
  simp [List.count_append]

theorem count_append_ne (l : List String) (v k : String) (h : k ≠ v) :
    (l ++ [v]).count k = l.count k := by
  rw [List.count_append, List.count_singleton]
  simp [Ne.symm h]

theorem count_filter_self (l : List String) (v : String) :
    (l.filter (fun x => x != v)).count v = 0 := by
  rw [List.count_eq_zero]
  intro hmem
  have h2 := List.of_mem_filter hmem
  simp at h2

theorem count_filter_ne (l : List String) (v k : String) (h : k ≠ v) :
    (l.filter (fun x => x != v)).count k = l.count k :=
  List.count_filter (by simp [h])

theorem not_mem_filter_of_not_mem (l : List String) (p : String → Bool) (v : String)
    (h : v ∉ l) : v ∉ l.filter p :=
  fun hmem => h (List.mem_of_mem_filter hmem)

theorem nodup_append_single (l : List String) (v : String) (h1 : l.Nodup) (h2 : v ∉ l) :
    (l ++ [v]).Nodup := by
  rw [List.nodup_append]
  refine ⟨h1, List.nodup_singleton v, ?_⟩
  intro a ha hb
  simp at hb
  subst hb
  exact h2 ha

theorem digitChar_isDigit : ∀ d, d < 10 → (digitChar d).isDigit = true := by
  decide

theorem digitChar_val : ∀ d, d < 10 → (digitChar d).toNat - 48 = d := by
  decide

theorem natToDigitsAux_fuel : ∀ (n fuel : Nat), n < fuel → natToDigitsAux fuel n = natToDigits n := by
  intro n
  induction n using Nat.strong_induction_on with
  | _ n ih =>
    intro fuel hf
    cases fuel with
    | zero => omega
    | succ f =>
      by_cases h10 : n < 10
      · simp [natToDigitsAux, natToDigits, h10]
      · have hdiv : n / 10 < n := Nat.div_lt_self (by omega) (by omega)
        have hL : natToDigitsAux (f + 1) n = natToDigitsAux f (n / 10) ++ [digitChar (n % 10)] := by
          simp [natToDigitsAux, h10]
        have hR : natToDigits n = natToDigitsAux n (n / 10) ++ [digitChar (n % 10)] := by
          simp [natToDigits, natToDigitsAux, h10]
        rw [hL, hR, ih (n / 10) hdiv f (by omega), ih (n / 10) hdiv n (by omega)]

theorem natToDigits_eq (n : Nat) :
    natToDigits n = if n < 10 then [digitChar n] else natToDigits (n / 10) ++ [digitChar (n % 10)] := by
  by_cases h : n < 10
  · simp [natToDigits, natToDigitsAux, h]
  · have hdiv : n / 10 < n := Nat.div_lt_self (by omega) (by omega)
    rw [if_neg h]
    have hR : natToDigits n = natToDigitsAux n (n / 10) ++ [digitChar (n % 10)] := by
      simp [natToDigits, natToDigitsAux, h]
    rw [hR, natToDigitsAux_fuel (n / 10) n (by omega)]

theorem natToDigits_ne_nil (n : Nat) : natToDigits n ≠ [] := by
  rw [natToDigits_eq]
  split <;> simp

theorem natToDigits_all_digit (n : Nat) : ∀ c ∈ natToDigits n, c.isDigit = true := by
  induction n using Nat.strong_induction_on with
  | _ n ih =>
    rw [natToDigits_eq]
    by_cases h : n < 10
    · rw [if_pos h]
      intro c hc
      simp at hc
      subst hc
      exact digitChar_isDigit n h
    · rw [if_neg h]
      intro c hc
      rw [List.mem_append] at hc
      rcases hc with hc | hc
      · exact ih (n / 10) (Nat.div_lt_self (by omega) (by omega)) c hc
      · simp at hc
        subst hc
        exact digitChar_isDigit (n % 10) (Nat.mod_lt n (by omega))

theorem digitsToNat_natToDigits (n : Nat) : digitsToNat (natToDigits n) = n := by
  induction n using Nat.strong_induction_on with
  | _ n ih =>
    rw [natToDigits_eq]
    by_cases h : n < 10
    · rw [if_pos h]
      unfold digitsToNat
      simp [List.foldl]
      exact digitChar_val n h
    · rw [if_neg h]
      unfold digitsToNat
      rw [List.foldl_append]
      have hdiv : n / 10 < n := Nat.div_lt_self (by omega) (by omega)
      have h1 : List.foldl (fun a c => a * 10 + (c.toNat - 48)) 0 (natToDigits (n / 10)) = n / 10 :=
        ih (n / 10) hdiv
      rw [h1]
      simp [List.foldl]
      rw [digitChar_val (n % 10) (Nat.mod_lt n (by omega))]
      omega

theorem takeWhile_eq_self (p : Char → Bool) : ∀ (l : List Char), (∀ c ∈ l, p c = true) → l.takeWhile p = l := by
  intro l
  induction l with
  | nil => intro _; rfl
  | cons c t iht =>
    intro h
    rw [List.takeWhile_cons, h c (by simp)]
    simp only [if_true]
    rw [iht (fun x hx => h x (by simp [hx]))]

theorem digit_not_special (c : Char) (h : c.isDigit = true) :
    isSpaceChar c = false ∧ (c == '-') = false ∧ (c == '+') = false := by
  refine ⟨?_, ?_, ?_⟩
  · cases hs : isSpaceChar c
    · rfl
    · simp [isSpaceChar] at hs
      rcases hs with ((rfl | rfl) | rfl) | rfl <;> exact absurd h (by decide)
  · rw [beq_eq_false_iff_ne]
    intro h1
    subst h1
    exact absurd h (by decide)
  · rw [beq_eq_false_iff_ne]
    intro h1
    subst h1
    exact absurd h (by decide)

theorem jsParseInt10_natToString (n : Nat) : jsParseInt10 (natToString n) = some (n : Int) := by
  have hne := natToDigits_ne_nil n
  have hall := natToDigits_all_digit n
  obtain ⟨c, t, hct⟩ : ∃ c t, natToDigits n = c :: t := by
    cases hx : natToDigits n with
    | nil => exact absurd hx hne
    | cons c t => exact ⟨c, t, rfl⟩
  have hc : c.isDigit = true := hall c (by rw [hct]; simp)
  obtain ⟨hs, hm, hp⟩ := digit_not_special c hc
  have hdata : (natToString n).data = c :: t := by
    simpa [natToString] using hct
  unfold jsParseInt10
  rw [hdata, List.dropWhile_cons, hs]
  simp only [Bool.false_eq_true, if_false]
  simp only [jsParseIntCore, hm, hp]
  simp only [Bool.false_eq_true, if_false]
  unfold digitsPrefixVal
  have htw : (c :: t).takeWhile Char.isDigit = c :: t := by
    apply takeWhile_eq_self
    intro x hx
    exact hall x (by rw [hct]; exact hx)
  simp only [htw]
  have hval : digitsToNat (c :: t) = n := by rw [← hct, digitsToNat_natToDigits]
  simp [hval]

theorem natToString_ne_empty (n : Nat) : natToString n ≠ "" := by
  intro h
  have h2 := congrArg String.data h
  simp [natToString] at h2
  exact absurd h2 (natToDigits_ne_nil n)

theorem incrementValue_natToString (n : Nat) :
    incrementValue (some (natToString n)) = natToString (n + 1) := by
  have h0 : clicksOrZero (some (natToString n)) = natToString n := by
    simp only [clicksOrZero]
    rw [if_neg (natToString_ne_empty n)]
  unfold incrementValue
  rw [h0, jsParseInt10_natToString]
  show jsNumToString ((n : Int) + 1) = natToString (n + 1)
  unfold jsNumToString
  rw [if_neg (by omega)]
  have h1 : ((n : Int) + 1).natAbs = n + 1 := by omega
  rw [h1]

theorem chunks_join {α : Type} : ∀ (n : Nat) (l : List α) (k : Nat), 0 < k → l.length = n →
    (List.range ((l.length + k - 1) / k)).flatMap (fun i => (l.drop (i * k)).take k) = l := by
  intro n
  induction n using Nat.strong_induction_on with
  | _ n ih =>
    intro l k hk hlen
    cases l with
    | nil =>
      have h0 : ((List.nil (α := α)).length + k - 1) / k = 0 := by
        rw [List.length_nil]
        exact Nat.div_eq_of_lt (by omega)
      rw [h0]
      simp
    | cons a t =>
      by_cases hnk : (a :: t).length ≤ k
      · have h1 : 1 ≤ (a :: t).length := by simp
        have htp : ((a :: t).length + k - 1) / k = 1 := by
          exact Nat.div_eq_of_lt_le (by omega) (by omega)
        rw [htp]
        have hr1 : List.range 1 = [0] := by decide
        rw [hr1, List.flatMap_cons]
        simp only [Nat.zero_mul, List.drop_zero, List.flatMap_nil, List.append_nil]
        exact List.take_of_length_le hnk
      · push_neg at hnk
        have hlt : (a :: t).length - k < n := by omega
        have htp : ((a :: t).length + k - 1) / k = (((a :: t).drop k).length + k - 1) / k + 1 := by
          rw [List.length_drop]
          have h2 : (a :: t).length + k - 1 = ((a :: t).length - k + k - 1) + k := by omega
          rw [h2, Nat.add_div_right _ hk]
        rw [htp, List.range_succ_eq_map, List.flatMap_cons]
        simp only [Nat.zero_mul, List.drop_zero]
        rw [List.flatMap_map]
        have hdrop : ∀ i : Nat, (a :: t).drop (Nat.succ i * k) = ((a :: t).drop k).drop (i * k) := by
          intro i
          rw [List.drop_drop]
          congr 1
          rw [Nat.succ_mul]
          ring
        have hfun : (fun i => ((a :: t).drop (Nat.succ i * k)).take k) =
            (fun i => (((a :: t).drop k).drop (i * k)).take k) := by
          funext i
          rw [hdrop i]
        rw [hfun]
        rw [ih ((a :: t).drop k).length (by rw [List.length_drop]; omega) ((a :: t).drop k) k hk rfl]
        exact List.take_append_drop k (a :: t)

theorem putRecord_trace (e : Eff) (k : String) (r : RawRecord) :
    (putRecord e k r).trace = e.trace ++ [KVEvent.recPut k] := rfl

theorem deleteRecord_trace (e : Eff) (k : String) :
    (deleteRecord e k).trace = e.trace ++ [KVEvent.recDel k] := rfl

theorem putClicks_trace (e : Eff) (k v : String) :
    (putClicks e k v).trace = e.trace ++ [KVEvent.clkPut k] := rfl

theorem deleteClicks_trace (e : Eff) (k : String) :
    (deleteClicks e k).trace = e.trace ++ [KVEvent.clkDel k] := rfl

theorem removeFromIndex_trace (e : Eff) (p v : String) :
    (removeFromIndex e p v).trace = e.trace ++ [KVEvent.idxPut p] := rfl

theorem addToIndex_trace_notmem (e : Eff) (p v : String) (h : v ∉ e.store.index p) :
    (addToIndex e p v).trace = e.trace ++ [KVEvent.idxPut p] := by
  simp [addToIndex, h]

theorem resolve_step_fst (s : Store) (g sl : String) (rest : List String) (en : RedirectEntry)
    (h : s.records (makeKey g sl) = some (RawRecord.good en)) :
    (handlePublicRedirect s false false (g :: sl :: rest)).1 = ResolveOutcome.redirect en.target := by
  simp [handlePublicRedirect, h]

theorem resolve_step_records (s : Store) (g sl : String) (rest : List String) (en : RedirectEntry)
    (h : s.records (makeKey g sl) = some (RawRecord.good en)) :
    (handlePublicRedirect s false false (g :: sl :: rest)).2.records = s.records := by
  simp [handlePublicRedirect, h]

theorem resolve_step_clicks_self (s : Store) (g sl : String) (rest : List String) (en : RedirectEntry)
    (h : s.records (makeKey g sl) = some (RawRecord.good en)) :
    (handlePublicRedirect s false false (g :: sl :: rest)).2.clicks (makeKey g sl) =
      some (incrementValue (s.clicks (makeKey g sl))) := by
  simp [handlePublicRedirect, h]

theorem resolveIter_counts (g sl : String) (en : RedirectEntry) :
    ∀ (N : Nat) (s : Store) (m : Nat),
      s.records (makeKey g sl) = some (RawRecord.good en) →
      s.clicks (makeKey g sl) = some (natToString m) →
      (resolveIter [g, sl] N s).records (makeKey g sl) = some (RawRecord.good en) ∧
      (resolveIter [g, sl] N s).clicks (makeKey g sl) = some (natToString (m + N)) := by
  intro N
  induction N with
  | zero =>
    intro s m h1 h2
    exact ⟨by simpa [resolveIter] using h1, by simpa [resolveIter] using h2⟩
  | succ n ihn =>
    intro s m h1 h2
    have hstep1 : (handlePublicRedirect s false false [g, sl]).2.records = s.records :=
      resolve_step_records s g sl [] en h1
    have hstep2 : (handlePublicRedirect s false false [g, sl]).2.clicks (makeKey g sl) =
        some (natToString (m + 1)) := by
      rw [resolve_step_clicks_self s g sl [] en h1, h2, incrementValue_natToString]
    have hrecs : (handlePublicRedirect s false false [g, sl]).2.records (makeKey g sl) =
        some (RawRecord.good en) := by
      rw [hstep1]
      exact h1
    obtain ⟨ha, hb⟩ := ihn ((handlePublicRedirect s false false [g, sl]).2) (m + 1) hrecs hstep2
    rw [show m + 1 + n = m + (n + 1) from by omega] at hb
    exact ⟨by simpa [resolveIter] using ha, by simpa [resolveIter] using hb⟩

theorem createChain_consistent (s : Store) (key cb : String) (entry : RedirectEntry)
    (hc : IndexConsistent s) (hnone : s.records key = none) (hcb : entry.createdBy = cb) :
    IndexConsistent (putClicks (putRecord (addToIndex (addToIndex (Eff.start s) "__ALL__" key)
      (userKey cb) key) key (RawRecord.good entry)) key "0").store := by
  have hA0 : (s.index "__ALL__").count key = 0 := by
    have h1 := (hc key).1
    rw [hnone] at h1
    simpa [keyCount, expectedAll] using h1
  have hU0 : ∀ u, (s.index (userKey u)).count key = 0 := by
    intro u
    have h1 := (hc key).2 u
    rw [hnone] at h1
    simpa [keyCount, expectedUser] using h1
  have hmemA : key ∉ s.index "__ALL__" := List.count_eq_zero.mp hA0
  have hmemU : key ∉ s.index (userKey cb) := List.count_eq_zero.mp (hU0 cb)
  set e1 := addToIndex (Eff.start s) "__ALL__" key with he1
  set e2 := addToIndex e1 (userKey cb) key with he2
  have hIdx1A : e1.store.index "__ALL__" = s.index "__ALL__" ++ [key] :=
    addToIndex_index_self (Eff.start s) "__ALL__" key hmemA
  have hIdx1U : ∀ u, e1.store.index (userKey u) = s.index (userKey u) := fun u =>
    addToIndex_index_ne (Eff.start s) "__ALL__" key (userKey u) (userKey_ne_all u)
  have hIdx2A : e2.store.index "__ALL__" = s.index "__ALL__" ++ [key] := by
    rw [he2, addToIndex_index_ne e1 (userKey cb) key "__ALL__" (Ne.symm (userKey_ne_all cb)), hIdx1A]
  have hIdx2U : e2.store.index (userKey cb) = s.index (userKey cb) ++ [key] := by
    rw [he2, addToIndex_index_self e1 (userKey cb) key (by rw [hIdx1U cb]; exact hmemU), hIdx1U cb]
  have hIdx2O : ∀ u, u ≠ cb → e2.store.index (userKey u) = s.index (userKey u) := by
    intro u hu
    rw [he2, addToIndex_index_ne e1 (userKey cb) key (userKey u) (fun hh => hu (userKey_inj hh)),
      hIdx1U u]
  have hRecF : ∀ q, (putClicks (putRecord e2 key (RawRecord.good entry)) key "0").store.records q =
      if q = key then some (RawRecord.good entry) else s.records q := by
    intro q
    rw [putClicks_records]
    by_cases hq : q = key
    · subst hq
      rw [putRecord_records_self, if_pos rfl]
    · rw [putRecord_records_ne _ _ _ _ hq, if_neg hq, he2, addToIndex_records, he1, addToIndex_records]
      rfl
  intro k
  constructor
  · simp only [keyCount]
    rw [putClicks_index, putRecord_index, hIdx2A, hRecF k]
    by_cases hk : k = key
    · subst hk
      rw [count_append_self, hA0, if_pos rfl]
      rfl
    · rw [count_append_ne _ _ _ hk, if_neg hk]
      have h1 := (hc k).1
      simpa [keyCount] using h1
  · intro u
    simp only [keyCount]
    rw [putClicks_index, putRecord_index, hRecF k]
    by_cases hu : u = cb
    · subst hu
      rw [hIdx2U]
      by_cases hk : k = key
      · subst hk
        rw [count_append_self, hU0 u, if_pos rfl]
        simp [expectedUser, hcb]
      · rw [count_append_ne _ _ _ hk, if_neg hk]
        have h1 := (hc k).2 u
        simpa [keyCount] using h1
    · rw [hIdx2O u hu]
      by_cases hk : k = key
      · subst hk
        rw [hU0 u, if_pos rfl]
        simp only [expectedUser]
        rw [hcb, if_neg (fun hh => hu hh.symm)]
      · rw [if_neg hk]
        have h1 := (hc k).2 u
        simpa [keyCount] using h1

theorem deleteChain_consistent (s : Store) (key : String) (parsed : RedirectEntry)
    (hc : IndexConsistent s) (hsome : s.records key = some (RawRecord.good parsed)) :
    IndexConsistent (deleteClicks (deleteRecord (removeFromIndex (removeFromIndex (Eff.start s)
      "__ALL__" key) (userKey parsed.createdBy) key) key) key).store := by
  set e1 := removeFromIndex (Eff.start s) "__ALL__" key with he1
  set e2 := removeFromIndex e1 (userKey parsed.createdBy) key with he2
  have hIdx1A : e1.store.index "__ALL__" = (s.index "__ALL__").filter (fun x => x != key) :=
    removeFromIndex_index_self (Eff.start s) "__ALL__" key
  have hIdx1U : ∀ u, e1.store.index (userKey u) = s.index (userKey u) := fun u =>
    removeFromIndex_index_ne (Eff.start s) "__ALL__" key (userKey u) (userKey_ne_all u)
  have hIdx2A : e2.store.index "__ALL__" = (s.index "__ALL__").filter (fun x => x != key) := by
    rw [he2, removeFromIndex_index_ne e1 (userKey parsed.createdBy) key "__ALL__"
      (Ne.symm (userKey_ne_all parsed.createdBy)), hIdx1A]
  have hIdx2U : e2.store.index (userKey parsed.createdBy) =
      (s.index (userKey parsed.createdBy)).filter (fun x => x != key) := by
    rw [he2, removeFromIndex_index_self e1 (userKey parsed.createdBy) key, hIdx1U parsed.createdBy]
  have hIdx2O : ∀ u, u ≠ parsed.createdBy → e2.store.index (userKey u) = s.index (userKey u) := by
    intro u hu
    rw [he2, removeFromIndex_index_ne e1 (userKey parsed.createdBy) key (userKey u)
      (fun hh => hu (userKey_inj hh)), hIdx1U u]
  have hRecF : ∀ q, (deleteClicks (deleteRecord e2 key) key).store.records q =
      if q = key then none else s.records q := by
    intro q
    rw [deleteClicks_records]
    by_cases hq : q = key
    · subst hq
      rw [deleteRecord_records_self, if_pos rfl]
    · rw [deleteRecord_records_ne _ _ _ hq, if_neg hq, he2, removeFromIndex_records, he1,
        removeFromIndex_records]
      rfl
  intro k
  constructor
  · simp only [keyCount]
    rw [deleteClicks_index, deleteRecord_index, hIdx2A, hRecF k]
    by_cases hk : k = key
    · subst hk
      rw [count_filter_self, if_pos rfl]
      rfl
    · rw [count_filter_ne _ _ _ hk, if_neg hk]
      have h1 := (hc k).1
      simpa [keyCount] using h1
  · intro u
    simp only [keyCount]
    rw [deleteClicks_index, deleteRecord_index, hRecF k]
    by_cases hu : u = parsed.createdBy
    · rw [hu, hIdx2U]
      by_cases hk : k = key
      · subst hk
        rw [count_filter_self, if_pos rfl]
        rfl
      · rw [count_filter_ne _ _ _ hk, if_neg hk]
        have h1 := (hc k).2 parsed.createdBy
        simpa [keyCount] using h1
    · rw [hIdx2O u hu]
      by_cases hk : k = key
      · subst hk
        have h1 := (hc k).2 u
        rw [hsome] at h1
        simp only [keyCount] at h1
        rw [h1, if_pos rfl]
        simp only [expectedUser]
        rw [if_neg (fun hh => hu hh.symm)]
      · rw [if_neg hk]
        have h1 := (hc k).2 u
        simpa [keyCount] using h1

theorem sameKeyChain_consistent (s : Store) (key : String) (parsed upd : RedirectEntry)
    (hc : IndexConsistent s) (hsome : s.records key = some (RawRecord.good parsed))
    (hcb : upd.createdBy = parsed.createdBy) :
    IndexConsistent (putRecord (Eff.start s) key (RawRecord.good upd)).store := by
  intro k
  constructor
  · simp only [keyCount]
    rw [putRecord_index]
    by_cases hk : k = key
    · subst hk
      have h1 := (hc k).1
      rw [hsome] at h1
      simp only [keyCount] at h1
      rw [putRecord_records_self]
      exact h1
    · rw [putRecord_records_ne _ _ _ _ hk]
      have h1 := (hc k).1
      simpa [keyCount] using h1
  · intro u
    simp only [keyCount]
    rw [putRecord_index]
    by_cases hk : k = key
    · subst hk
      have h1 := (hc k).2 u
      rw [hsome] at h1
      simp only [keyCount] at h1
      rw [putRecord_records_self]
      simpa [expectedUser, hcb] using h1
    · rw [putRecord_records_ne _ _ _ _ hk]
      have h1 := (hc k).2 u
      simpa [keyCount] using h1

theorem renameChain_consistent (s : Store) (oldKey newKey : String) (parsed upd : RedirectEntry)
    (e3 : Eff) (hc : IndexConsistent s)
    (hold : s.records oldKey = some (RawRecord.good parsed))
    (hnew : s.records newKey = none)
    (hkne : newKey ≠ oldKey)
    (hcb : upd.createdBy = parsed.createdBy)
    (h3rec : e3.store.records = fun q => if q = oldKey then none
      else if q = newKey then some (RawRecord.good upd) else s.records q)
    (h3idx : e3.store.index = s.index) :
    IndexConsistent (addToIndex (removeFromIndex (addToIndex (removeFromIndex e3 "__ALL__" oldKey)
      "__ALL__" newKey) (userKey parsed.createdBy) oldKey) (userKey parsed.createdBy) newKey).store := by
  have hAnew0 : (s.index "__ALL__").count newKey = 0 := by
    have h1 := (hc newKey).1
    rw [hnew] at h1
    simpa [keyCount, expectedAll] using h1
  have hUnew0 : ∀ u, (s.index (userKey u)).count newKey = 0 := by
    intro u
    have h1 := (hc newKey).2 u
    rw [hnew] at h1
    simpa [keyCount, expectedUser] using h1
  have hmemAnew : newKey ∉ s.index "__ALL__" := List.count_eq_zero.mp hAnew0
  have hmemUnew : newKey ∉ s.index (userKey parsed.createdBy) :=
    List.count_eq_zero.mp (hUnew0 parsed.createdBy)
  set e4 := removeFromIndex e3 "__ALL__" oldKey with he4
  set e5 := addToIndex e4 "__ALL__" newKey with he5
  set e6 := removeFromIndex e5 (userKey parsed.createdBy) oldKey with he6
  have hIdx4A : e4.store.index "__ALL__" = (s.index "__ALL__").filter (fun x => x != oldKey) := by
    rw [he4, removeFromIndex_index_self, h3idx]
  have hIdx4U : ∀ u, e4.store.index (userKey u) = s.index (userKey u) := by
    intro u
    rw [he4, removeFromIndex_index_ne e3 "__ALL__" oldKey (userKey u) (userKey_ne_all u), h3idx]
  have hIdx5A : e5.store.index "__ALL__" =
      (s.index "__ALL__").filter (fun x => x != oldKey) ++ [newKey] := by
    rw [he5, addToIndex_index_self e4 "__ALL__" newKey
      (by rw [hIdx4A]; exact not_mem_filter_of_not_mem _ _ _ hmemAnew), hIdx4A]
  have hIdx5U : ∀ u, e5.store.index (userKey u) = s.index (userKey u) := by
    intro u
    rw [he5, addToIndex_index_ne e4 "__ALL__" newKey (userKey u) (userKey_ne_all u), hIdx4U u]
  have hIdx6A : e6.store.index "__ALL__" =
      (s.index "__ALL__").filter (fun x => x != oldKey) ++ [newKey] := by
    rw [he6, removeFromIndex_index_ne e5 (userKey parsed.createdBy) oldKey "__ALL__"
      (Ne.symm (userKey_ne_all parsed.createdBy)), hIdx5A]
  have hIdx6U : e6.store.index (userKey parsed.createdBy) =
      (s.index (userKey parsed.createdBy)).filter (fun x => x != oldKey) := by
    rw [he6, removeFromIndex_index_self, hIdx5U parsed.createdBy]
  have hIdx6O : ∀ u, u ≠ parsed.createdBy → e6.store.index (userKey u) = s.index (userKey u) := by
    intro u hu
    rw [he6, removeFromIndex_index_ne e5 (userKey parsed.createdBy) oldKey (userKey u)
      (fun hh => hu (userKey_inj hh)), hIdx5U u]
  have hIdxFA : (addToIndex e6 (userKey parsed.createdBy) newKey).store.index "__ALL__" =
      (s.index "__ALL__").filter (fun x => x != oldKey) ++ [newKey] := by
    rw [addToIndex_index_ne e6 (userKey parsed.createdBy) newKey "__ALL__"
      (Ne.symm (userKey_ne_all parsed.createdBy)), hIdx6A]
  have hIdxFU : (addToIndex e6 (userKey parsed.createdBy) newKey).store.index
      (userKey parsed.createdBy) =
      (s.index (userKey parsed.createdBy)).filter (fun x => x != oldKey) ++ [newKey] := by
    rw [addToIndex_index_self e6 (userKey parsed.createdBy) newKey
      (by rw [hIdx6U]; exact not_mem_filter_of_not_mem _ _ _ hmemUnew), hIdx6U]
  have hIdxFO : ∀ u, u ≠ parsed.createdBy →
      (addToIndex e6 (userKey parsed.createdBy) newKey).store.index (userKey u) =
      s.index (userKey u) := by
    intro u hu
    rw [addToIndex_index_ne e6 (userKey parsed.createdBy) newKey (userKey u)
      (fun hh => hu (userKey_inj hh)), hIdx6O u hu]
  have hRecF : ∀ q, (addToIndex e6 (userKey parsed.createdBy) newKey).store.records q =
      if q = oldKey then none else if q = newKey then some (RawRecord.good upd) else s.records q := by
    intro q
    rw [addToIndex_records, he6, removeFromIndex_records, he5, addToIndex_records, he4,
      removeFromIndex_records, h3rec]
  intro k
  constructor
  · simp only [keyCount]
    rw [hIdxFA, hRecF k]
    by_cases hko : k = oldKey
    · subst hko
      rw [count_append_ne _ _ _ (Ne.symm hkne), count_filter_self, if_pos rfl]
      rfl
    · by_cases hkn : k = newKey
      · subst hkn
        rw [count_append_self, count_filter_ne _ _ _ hkne, hAnew0, if_neg hko, if_pos rfl]
        rfl
      · rw [count_append_ne _ _ _ hkn, count_filter_ne _ _ _ hko, if_neg hko, if_neg hkn]
        have h1 := (hc k).1
        simpa [keyCount] using h1
  · intro u
    simp only [keyCount]
    rw [hRecF k]
    by_cases hu : u = parsed.createdBy
    · rw [hu, hIdxFU]
      by_cases hko : k = oldKey
      · subst hko
        rw [count_append_ne _ _ _ (Ne.symm hkne), count_filter_self, if_pos rfl]
        rfl
      · by_cases hkn : k = newKey
        · subst hkn
          rw [count_append_self, count_filter_ne _ _ _ hkne, hUnew0 parsed.createdBy,
            if_neg hko, if_pos rfl]
          simp only [expectedUser]
          rw [if_pos hcb]
        · rw [count_append_ne _ _ _ hkn, count_filter_ne _ _ _ hko, if_neg hko, if_neg hkn]
          have h1 := (hc k).2 parsed.createdBy
          simpa [keyCount] using h1
    · rw [hIdxFO u hu]
      by_cases hko : k = oldKey
      · subst hko
        have h1 := (hc k).2 u
        rw [hold] at h1
        simp only [keyCount] at h1
        rw [h1, if_pos rfl]
        simp only [expectedUser]
        rw [if_neg (fun hh => hu hh.symm)]
      · by_cases hkn : k = newKey
        · subst hkn
          rw [hUnew0 u, if_neg hko, if_pos rfl]
          simp only [expectedUser]
          rw [hcb, if_neg (fun hh => hu hh.symm)]
        · rw [if_neg hko, if_neg hkn]
          have h1 := (hc k).2 u
          simpa [keyCount] using h1

theorem moveRecords_eq (s : Store) (oldKey newKey : String) (upd : RedirectEntry) :
    (deleteRecord (putRecord (Eff.start s) newKey (RawRecord.good upd)) oldKey).store.records =
    fun q => if q = oldKey then none
      else if q = newKey then some (RawRecord.good upd) else s.records q := by
  funext q
  by_cases hq : q = oldKey
  · subst hq
    rw [deleteRecord_records_self, if_pos rfl]
  · rw [deleteRecord_records_ne _ _ _ hq, if_neg hq]
    by_cases hq2 : q = newKey
    · subst hq2
      rw [putRecord_records_self, if_pos rfl]
    · rw [putRecord_records_ne _ _ _ _ hq2, if_neg hq2]
      rfl

theorem moveIndex_eq (s : Store) (oldKey newKey : String) (upd : RedirectEntry) :
    (deleteRecord (putRecord (Eff.start s) newKey (RawRecord.good upd)) oldKey).store.index =
    s.index := by
  rw [deleteRecord_index, putRecord_index]
  rfl

theorem createRedirect_consistent (vu : String → Bool) (now : String) (body : Option CreateBody)
    (s : Store) (hc : IndexConsistent s) (e : Eff)
    (h : createRedirect vu now body s = (201, e)) : IndexConsistent e.store := by
  cases body with
  | none => simp [createRedirect] at h
  | some b =>
    simp only [createRedirect] at h
    split at h
    · simp at h
    · split at h
      · simp at h
      · split at h
        · simp at h
        · split at h
          · simp at h
          · split at h
            · simp at h
            · rename_i hns
              injection h with h1 h2
              subst h2
              refine createChain_consistent s _ _ _ hc ?_ rfl
              cases hrk : s.records (makeKey (b.group.getD "") (b.slug.getD "")) with
              | none => rfl
              | some r =>
                rw [hrk] at hns
                simp at hns

theorem deleteRedirect_consistent (g sl : String) (s : Store) (hc : IndexConsistent s) (e : Eff)
    (h : deleteRedirect g sl s = (200, e)) : IndexConsistent e.store := by
  cases hrec : s.records (makeKey g sl) with
  | none => simp [deleteRedirect, hrec] at h
  | some raw =>
    cases raw with
    | bad c => simp [deleteRedirect, hrec] at h
    | good parsed =>
      simp only [deleteRedirect, hrec] at h
      injection h with h1 h2
      subst h2
      exact deleteChain_consistent s (makeKey g sl) parsed hc hrec

theorem editRedirect_consistent (vu : String → Bool) (now g sl : String) (body : Option PatchBody)
    (s : Store) (hc : IndexConsistent s) (e : Eff)
    (h : editRedirect vu now g sl body s = (200, e)) : IndexConsistent e.store := by
  cases hrec : s.records (makeKey g sl) with
  | none => simp [editRedirect, hrec] at h
  | some raw =>
    cases body with
    | none => simp [editRedirect, hrec] at h
    | some b =>
      cases raw with
      | bad c => simp [editRedirect, hrec] at h
      | good parsed =>
        simp only [editRedirect, hrec] at h
        split at h
        · simp at h
        · split at h
          · simp at h
          · split at h
            · simp at h
            · split at h
              · simp at h
              · split at h
                · simp at h
                · rename_i hcol
                  split at h
                  · rename_i hkeq
                    injection h with h1 h2
                    subst h2
                    exact sameKeyChain_consistent s (makeKey g sl) parsed
                      (mergeEntry now parsed b) hc hrec rfl
                  · rename_i hkne
                    injection h with h1 h2
                    subst h2
                    have hnew : s.records (makeKey (b.group.getD parsed.group)
                        (b.slug.getD parsed.slug)) = none := by
                      push_neg at hcol
                      have h2 := hcol hkne
                      cases hrk : s.records (makeKey (b.group.getD parsed.group)
                          (b.slug.getD parsed.slug)) with
                      | none => rfl
                      | some r =>
                        rw [hrk] at h2
                        simp at h2
                    refine renameChain_consistent s (makeKey g sl)
                      (makeKey (b.group.getD parsed.group) (b.slug.getD parsed.slug)) parsed
                      (mergeEntry now parsed b) _ hc hrec hnew hkne rfl ?_ ?_
                    · split
                      · split
                        · exact moveRecords_eq s (makeKey g sl) _ _
                        · rw [deleteClicks_records, putClicks_records]
                          exact moveRecords_eq s (makeKey g sl) _ _
                      · exact moveRecords_eq s (makeKey g sl) _ _
                    · split
                      · split
                        · exact moveIndex_eq s (makeKey g sl) _ _
                        · rw [deleteClicks_index, putClicks_index]
                          exact moveIndex_eq s (makeKey g sl) _ _
                      · exact moveIndex_eq s (makeKey g sl) _ _

theorem deleteRedirect_success_trace (g sl : String) (s : Store) (parsed : RedirectEntry) (e : Eff)
    (hrec : s.records (makeKey g sl) = some (RawRecord.good parsed))
    (h : deleteRedirect g sl s = (200, e)) :
    e.trace = [KVEvent.idxPut "__ALL__", KVEvent.idxPut (userKey parsed.createdBy),
      KVEvent.recDel (makeKey g sl), KVEvent.clkDel (makeKey g sl)] := by
  simp only [deleteRedirect, hrec] at h
  injection h with h1 h2
  subst h2
  rw [deleteClicks_trace, deleteRecord_trace, removeFromIndex_trace, removeFromIndex_trace]
  rfl

theorem createRedirect_success_trace (vu : String → Bool) (now : String) (b : CreateBody)
    (s : Store) (e : Eff)
    (hA : makeKey (b.group.getD "") (b.slug.getD "") ∉ s.index "__ALL__")
    (hU : makeKey (b.group.getD "") (b.slug.getD "") ∉
      s.index (userKey (b.createdBy.getD "")))
    (h : createRedirect vu now (some b) s = (201, e)) :
    e.trace = [KVEvent.idxPut "__ALL__", KVEvent.idxPut (userKey (b.createdBy.getD "")),
      KVEvent.recPut (makeKey (b.group.getD "") (b.slug.getD "")),
      KVEvent.clkPut (makeKey (b.group.getD "") (b.slug.getD ""))] := by
  simp only [createRedirect] at h
  split at h
  · simp at h
  · split at h
    · simp at h
    · split at h
      · simp at h
      · split at h
        · simp at h
        · split at h
          · simp at h
          · injection h with h1 h2
            subst h2
            rw [putClicks_trace, putRecord_trace]
            have he1idx : (addToIndex (Eff.start s) "__ALL__"
                (makeKey (b.group.getD "") (b.slug.getD ""))).store.index
                (userKey (b.createdBy.getD "")) = s.index (userKey (b.createdBy.getD "")) :=
              addToIndex_index_ne _ _ _ _ (userKey_ne_all _)
            rw [addToIndex_trace_notmem _ _ _ (by rw [he1idx]; exact hU)]
            rw [addToIndex_trace_notmem _ _ _ hA]
            rfl

theorem addToIndex_trace_events (e : Eff) (p v : String) :
    ∀ ev ∈ (addToIndex e p v).trace, ev ∈ e.trace ∨ ev = KVEvent.idxPut p := by
  intro ev hev
  unfold addToIndex at hev
  split at hev
  · exact Or.inl hev
  · simp at hev
    exact hev

theorem createRedirect_trace_shape (vu : String → Bool) (now : String) (b : CreateBody)
    (s : Store) (e : Eff)
    (h : createRedirect vu now (some b) s = (201, e)) :
    ∃ pre, e.trace = pre ++ [KVEvent.recPut (makeKey (b.group.getD "") (b.slug.getD "")),
      KVEvent.clkPut (makeKey (b.group.getD "") (b.slug.getD ""))] ∧
      ∀ ev ∈ pre, ∃ p, ev = KVEvent.idxPut p := by
  simp only [createRedirect] at h
  split at h
  · simp at h
  · split at h
    · simp at h
    · split at h
      · simp at h
      · split at h
        · simp at h
        · split at h
          · simp at h
          · injection h with h1 h2
            subst h2
            refine ⟨(addToIndex (addToIndex (Eff.start s) "__ALL__"
              (makeKey (b.group.getD "") (b.slug.getD "")))
              (userKey (b.createdBy.getD ""))
              (makeKey (b.group.getD "") (b.slug.getD ""))).trace, ?_, ?_⟩
            · rw [putClicks_trace, putRecord_trace, List.append_assoc]
              rfl
            · intro ev hev
              rcases addToIndex_trace_events _ _ _ ev hev with h2 | h2
              · rcases addToIndex_trace_events _ _ _ ev h2 with h3 | h3
                · simp [Eff.start] at h3
                · exact ⟨"__ALL__", h3⟩
              · exact ⟨userKey (b.createdBy.getD ""), h2⟩

theorem indexConsistent_empty : IndexConsistent Store.empty := by
  intro k
  constructor
  · simp [keyCount, Store.empty, expectedAll]
  · intro u
    simp [keyCount, Store.empty, expectedUser]

/-- Claim C1: every single admin operation (create, same-key update, rename,
delete) run on an initially consistent store that completes without error
leaves the composite key in the global partition and in the partition of its
createdBy exactly when a record for that key is present, and exactly once. -/
theorem c1_index_consistency (vu : String → Bool) (now g sl : String)
    (cb : Option CreateBody) (pb : Option PatchBody) (s : Store) (e1 e2 e3 : Eff)
    (hc : IndexConsistent s) :
    (createRedirect vu now cb s = (201, e1) → IndexConsistent e1.store) ∧
    (editRedirect vu now g sl pb s = (200, e2) → IndexConsistent e2.store) ∧
    (deleteRedirect g sl s = (200, e3) → IndexConsistent e3.store) :=
  ⟨fun h => createRedirect_consistent vu now cb s hc e1 h,
   fun h => editRedirect_consistent vu now g sl pb s hc e2 h,
   fun h => deleteRedirect_consistent g sl s hc e3 h⟩

/-- Claim C1, witness: a concrete create on the empty (hence consistent)
store yields a consistent store. -/
theorem c1_index_consistency_witness :
    IndexConsistent Store.empty ∧
    IndexConsistent (createRedirect demoURLCheck "t0" (some demoCreateBody) Store.empty).2.store := by
  have hc := indexConsistent_empty
  refine ⟨hc, ?_⟩
  have heq : createRedirect demoURLCheck "t0" (some demoCreateBody) Store.empty =
      (201, (createRedirect demoURLCheck "t0" (some demoCreateBody) Store.empty).2) :=
    Prod.ext (by decide) rfl
  exact (c1_index_consistency demoURLCheck "t0" "g" "s" (some demoCreateBody) none Store.empty
    ((createRedirect demoURLCheck "t0" (some demoCreateBody) Store.empty).2)
    (Eff.start Store.empty) (Eff.start Store.empty) hc).1 heq

/-- Claim C2, counterexample: on a concrete create the first write is an
index rewrite, not the record write, and on a concrete delete the last
delete is the counter delete, not the record delete. -/
theorem c2_record_order_counterexample :
    (createRedirect demoURLCheck "t0" (some demoCreateBody) Store.empty).2.trace =
      [KVEvent.idxPut "__ALL__", KVEvent.idxPut "__USER__:u1", KVEvent.recPut "g/s",
        KVEvent.clkPut "g/s"] ∧
    (createRedirect demoURLCheck "t0" (some demoCreateBody) Store.empty).2.trace.head? ≠
      some (KVEvent.recPut "g/s") ∧
    (deleteRedirect "g" "s" demoStore).2.trace =
      [KVEvent.idxPut "__ALL__", KVEvent.idxPut "__USER__:u1", KVEvent.recDel "g/s",
        KVEvent.clkDel "g/s"] ∧
    (deleteRedirect "g" "s" demoStore).2.trace.getLast? ≠ some (KVEvent.recDel "g/s") := by
  decide

/-- Claim C2 (amended): in every successful create the record write is
preceded only by index partition writes and followed only by the counter
init; when the key is fresh in both partitions those index writes are
exactly the global then the per-creator addition. A successful delete
rewrites the global partition, then the per-creator partition, then
deletes the record, then the counter. The record write is neither the
first write of a create nor the last delete of a delete. -/
theorem c2_actual_mutation_order (vu : String → Bool) (now : String) (b : CreateBody)
    (g sl : String) (s sd : Store) (parsed : RedirectEntry) (e ed : Eff)
    (hcreate : createRedirect vu now (some b) s = (201, e))
    (hrec : sd.records (makeKey g sl) = some (RawRecord.good parsed))
    (hdelete : deleteRedirect g sl sd = (200, ed)) :
    (∃ pre, e.trace = pre ++ [KVEvent.recPut (makeKey (b.group.getD "") (b.slug.getD "")),
        KVEvent.clkPut (makeKey (b.group.getD "") (b.slug.getD ""))] ∧
      ∀ ev ∈ pre, ∃ p, ev = KVEvent.idxPut p) ∧
    (makeKey (b.group.getD "") (b.slug.getD "") ∉ s.index "__ALL__" →
      makeKey (b.group.getD "") (b.slug.getD "") ∉
        s.index (userKey (b.createdBy.getD "")) →
      e.trace = [KVEvent.idxPut "__ALL__", KVEvent.idxPut (userKey (b.createdBy.getD "")),
        KVEvent.recPut (makeKey (b.group.getD "") (b.slug.getD "")),
        KVEvent.clkPut (makeKey (b.group.getD "") (b.slug.getD ""))]) ∧
    ed.trace = [KVEvent.idxPut "__ALL__", KVEvent.idxPut (userKey parsed.createdBy),
      KVEvent.recDel (makeKey g sl), KVEvent.clkDel (makeKey g sl)] :=
  ⟨createRedirect_trace_shape vu now b s e hcreate,
   fun hA hU => createRedirect_success_trace vu now b s e hA hU hcreate,
   deleteRedirect_success_trace g sl sd parsed ed hrec hdelete⟩

/-- Claim C2 (amended), witness at a concrete create and delete. -/
theorem c2_actual_mutation_order_witness :
    (makeKey (demoCreateBody.group.getD "") (demoCreateBody.slug.getD "") ∉
      Store.empty.index "__ALL__") ∧
    (createRedirect demoURLCheck "t0" (some demoCreateBody) Store.empty).2.trace =
      [KVEvent.idxPut "__ALL__", KVEvent.idxPut (userKey (demoCreateBody.createdBy.getD "")),
        KVEvent.recPut (makeKey (demoCreateBody.group.getD "") (demoCreateBody.slug.getD "")),
        KVEvent.clkPut (makeKey (demoCreateBody.group.getD "") (demoCreateBody.slug.getD ""))] ∧
    (deleteRedirect "g" "s" demoStore).2.trace =
      [KVEvent.idxPut "__ALL__", KVEvent.idxPut (userKey demoEntry.createdBy),
        KVEvent.recDel (makeKey "g" "s"), KVEvent.clkDel (makeKey "g" "s")] := by
  have heq1 : createRedirect demoURLCheck "t0" (some demoCreateBody) Store.empty =
      (201, (createRedirect demoURLCheck "t0" (some demoCreateBody) Store.empty).2) :=
    Prod.ext (by decide) rfl
  have heq2 : deleteRedirect "g" "s" demoStore =
      (200, (deleteRedirect "g" "s" demoStore).2) :=
    Prod.ext (by decide) rfl
  have hm := c2_actual_mutation_order demoURLCheck "t0" demoCreateBody "g" "s" Store.empty
    demoStore demoEntry _ _ heq1 (by decide) heq2
  exact ⟨by decide, hm.2.1 (by decide) (by decide), hm.2.2⟩

/-- Claim C3, counterexample: the admin GET of a key whose stored value
fails to parse throws (surfaced as a 500), not NotFound, and a list page
holding that member throws instead of reporting it as a null entry. -/
theorem c3_parse_failure_counterexample :
    adminGetOne corruptStore "g" "a" = GetOneOutcome.thrown ∧
    adminGetOne corruptStore "g" "a" ≠ GetOneOutcome.notFound ∧
    listRedirects corruptStore 1 20 = ListOutcome.thrown := by
  decide

/-- Claim C3 (amended): a parse failure on the single-record admin GET
escapes to the top-level handler (a 500, never NotFound); a list page
throws as soon as one of its members has an unparseable stored value; and
a page whose members all parse or are absent is returned whole, with an
absent member reported as a null entry. -/
theorem c3_parse_failures_surfaced :
    (∀ (s : Store) (g sl cr : String), validateGroup g = true → validateSlug sl = true →
      s.records (makeKey g sl) = some (RawRecord.bad cr) →
      adminGetOne s g sl = GetOneOutcome.thrown) ∧
    (∀ (s : Store) (p k : Nat) (m : String), m ∈ listPageKeys s p k →
      recordIsBad (s.records m) = true → listRedirects s p k = ListOutcome.thrown) ∧
    (∀ (s : Store) (p k : Nat),
      (∀ m ∈ listPageKeys s p k, recordIsBad (s.records m) = false) →
      listRedirects s p k = ListOutcome.ok p k (s.index "__ALL__").length
        (((s.index "__ALL__").length + k - 1) / k)
        ((listPageKeys s p k).map (fun m => (m, parsedData (s.records m))))) := by
  refine ⟨?_, ?_, ?_⟩
  · intro s g sl cr hg hs hrec
    simp [adminGetOne, hg, hs, hrec]
  · intro s p k m hm hbad
    have hany : (listPageKeys s p k).any (fun q => recordIsBad (s.records q)) = true := by
      rw [List.any_eq_true]
      exact ⟨m, hm, hbad⟩
    simp [listRedirects, hany]
  · intro s p k hgood
    have hany : (listPageKeys s p k).any (fun q => recordIsBad (s.records q)) = false := by
      rw [List.any_eq_false]
      intro m hm
      rw [hgood m hm]
      simp
    simp [listRedirects, hany]

/-- Claim C3 (amended), witness on the corrupted store. -/
theorem c3_parse_failures_surfaced_witness :
    validateGroup "g" = true ∧ validateSlug "a" = true ∧
    corruptStore.records (makeKey "g" "a") = some (RawRecord.bad "oops") ∧
    adminGetOne corruptStore "g" "a" = GetOneOutcome.thrown :=
  ⟨by decide, by decide, by decide,
    c3_parse_failures_surfaced.1 corruptStore "g" "a" "oops" (by decide) (by decide) (by decide)⟩

/-- Claim C4, counterexample: with a failing counter read the resolution
does not return the redirect, so a failure of part of the increment does
change the resolution outcome. -/
theorem c4_counter_read_counterexample :
    (handlePublicRedirect demoStore false false ["g", "s"]).1 =
      ResolveOutcome.redirect demoEntry.target ∧
    (handlePublicRedirect demoStore true false ["g", "s"]).1 ≠
      ResolveOutcome.redirect demoEntry.target := by
  decide

/-- Claim C4 (amended): on a resolvable key, a failure of the
fire-and-forget counter write changes neither the redirect outcome nor the
store, but the counter read is awaited and its failure aborts the
resolution with an error instead of the redirect. -/
theorem c4_increment_failure_effects (s : Store) (g sl : String) (rest : List String)
    (en : RedirectEntry) (h : s.records (makeKey g sl) = some (RawRecord.good en)) :
    (∀ wf : Bool, (handlePublicRedirect s false wf (g :: sl :: rest)).1 =
      ResolveOutcome.redirect en.target) ∧
    (handlePublicRedirect s false true (g :: sl :: rest)).2 = s ∧
    (∀ wf : Bool, (handlePublicRedirect s true wf (g :: sl :: rest)).1 =
      ResolveOutcome.thrown) := by
  refine ⟨?_, ?_, ?_⟩
  · intro wf
    cases wf
    · exact resolve_step_fst s g sl rest en h
    · simp [handlePublicRedirect, h]
  · simp [handlePublicRedirect, h]
  · intro wf
    simp [handlePublicRedirect, h]

/-- Claim C4 (amended), witness on the demo store. -/
theorem c4_increment_failure_effects_witness :
    demoStore.records (makeKey "g" "s") = some (RawRecord.good demoEntry) ∧
    (handlePublicRedirect demoStore false true ["g", "s"]).1 =
      ResolveOutcome.redirect demoEntry.target :=
  ⟨by decide, (c4_increment_failure_effects demoStore "g" "s" [] demoEntry (by decide)).1 true⟩

/-- Claim C5, counterexample: a stored non-numeric counter value is not
treated as zero; the increment writes the string NaN, not the decimal one. -/
theorem c5_non_numeric_counterexample :
    (handlePublicRedirect junkClicksStore false false ["g", "s"]).2.clicks "g/s" =
      some "NaN" ∧
    (handlePublicRedirect junkClicksStore false false ["g", "s"]).2.clicks "g/s" ≠
      some "1" := by
  decide

/-- Claim C5 (amended): the increment treats an absent or empty stored
value as zero and otherwise parses the stored decimal value, adds one and
writes the decimal string back (a value with no leading digits propagates
as NaN); consequently N sequential failure-free resolutions of a key take
its counter from its creation value 0 to exactly N, each returning the
redirect. -/
theorem c5_sequential_counter (g sl : String) (en : RedirectEntry) (s : Store) (N : Nat)
    (h1 : s.records (makeKey g sl) = some (RawRecord.good en))
    (h2 : s.clicks (makeKey g sl) = some (natToString 0)) :
    (resolveIter [g, sl] N s).clicks (makeKey g sl) = some (natToString N) ∧
    (∀ i : Nat, (handlePublicRedirect (resolveIter [g, sl] i s) false false [g, sl]).1 =
      ResolveOutcome.redirect en.target) ∧
    incrementValue none = natToString 1 ∧
    incrementValue (some "") = natToString 1 := by
  refine ⟨?_, ?_, by decide, by decide⟩
  · have hb := (resolveIter_counts g sl en N s 0 h1 h2).2
    simpa using hb
  · intro i
    have hrec := (resolveIter_counts g sl en i s 0 h1 h2).1
    exact resolve_step_fst _ g sl [] en hrec

/-- Claim C5 (amended), witness: three sequential resolutions on the demo
store take the counter from 0 to 3. -/
theorem c5_sequential_counter_witness :
    demoStore.records (makeKey "g" "s") = some (RawRecord.good demoEntry) ∧
    demoStore.clicks (makeKey "g" "s") = some (natToString 0) ∧
    (resolveIter ["g", "s"] 3 demoStore).clicks (makeKey "g" "s") = some (natToString 3) :=
  ⟨by decide, by decide,
    (c5_sequential_counter "g" "s" demoEntry demoStore 3 (by decide) (by decide)).1⟩

/-- Claim C6: a rename — an update of an existing record whose patch
touches only group and/or slug, onto a free key — stores under the new key
a record with the same target, createdBy, createdAt, title and notes as the
pre-rename record, with only group, slug and updatedAt changed, and removes
the old key. -/
theorem c6_rename_preserves_payload (vu : String → Bool) (now g sl : String) (b : PatchBody)
    (s : Store) (parsed : RedirectEntry)
    (hrec : s.records (makeKey g sl) = some (RawRecord.good parsed))
    (hT : b.target = none) (hTi : b.title = none) (hN : b.notes = none)
    (hne : b.group.isSome ∨ b.slug.isSome)
    (hbg : badGroupField b = false) (hbs : badSlugField b = false)
    (hkne : makeKey (b.group.getD parsed.group) (b.slug.getD parsed.slug) ≠ makeKey g sl)
    (hfree : s.records (makeKey (b.group.getD parsed.group) (b.slug.getD parsed.slug)) = none) :
    (editRedirect vu now g sl (some b) s).1 = 200 ∧
    (editRedirect vu now g sl (some b) s).2.store.records
        (makeKey (b.group.getD parsed.group) (b.slug.getD parsed.slug)) =
      some (RawRecord.good
        { target := parsed.target, group := b.group.getD parsed.group,
          slug := b.slug.getD parsed.slug, createdBy := parsed.createdBy,
          createdAt := parsed.createdAt, updatedAt := some now,
          title := parsed.title, notes := parsed.notes }) ∧
    (editRedirect vu now g sl (some b) s).2.store.records (makeKey g sl) = none := by
  have hpe : patchIsEmpty b = false := by
    rcases hne with hx | hx
    · rcases hg2 : b.group with _ | gg
      · rw [hg2] at hx
        simp at hx
      · simp [patchIsEmpty, hg2]
    · rcases hs2 : b.slug with _ | gg
      · rw [hs2] at hx
        simp at hx
      · simp [patchIsEmpty, hs2]
  have hbt : badTargetField vu b = false := by simp [badTargetField, hT]
  have hcol : ¬(makeKey (b.group.getD parsed.group) (b.slug.getD parsed.slug) ≠ makeKey g sl ∧
      (s.records (makeKey (b.group.getD parsed.group) (b.slug.getD parsed.slug))).isSome
        = true) := by
    rintro ⟨-, hx⟩
    rw [hfree] at hx
    simp at hx
  have hmerge : mergeEntry now parsed b =
      { target := parsed.target, group := b.group.getD parsed.group,
        slug := b.slug.getD parsed.slug, createdBy := parsed.createdBy,
        createdAt := parsed.createdAt, updatedAt := some now,
        title := parsed.title, notes := parsed.notes } := by
    simp [mergeEntry, hT, hTi, hN]
  refine ⟨?_, ?_, ?_⟩
  · simp only [editRedirect, hrec, hpe, hbt, hbg, hbs, Bool.false_eq_true, if_false,
      if_neg hcol, if_neg hkne]
  · simp only [editRedirect, hrec, hpe, hbt, hbg, hbs, Bool.false_eq_true, if_false,
      if_neg hcol, if_neg hkne]
    rw [addToIndex_records, removeFromIndex_records, addToIndex_records, removeFromIndex_records]
    split
    · split
      · rw [moveRecords_eq]
        simp [hkne, hmerge]
      · rw [deleteClicks_records, putClicks_records, moveRecords_eq]
        simp [hkne, hmerge]
    · rw [moveRecords_eq]
      simp [hkne, hmerge]
  · simp only [editRedirect, hrec, hpe, hbt, hbg, hbs, Bool.false_eq_true, if_false,
      if_neg hcol, if_neg hkne]
    rw [addToIndex_records, removeFromIndex_records, addToIndex_records, removeFromIndex_records]
    split
    · split
      · rw [moveRecords_eq]
        simp
      · rw [deleteClicks_records, putClicks_records, moveRecords_eq]
        simp
    · rw [moveRecords_eq]
      simp

/-- Claim C6, witness: a concrete slug rename on the demo store. -/
theorem c6_rename_preserves_payload_witness :
    demoStore.records (makeKey "g" "s") = some (RawRecord.good demoEntry) ∧
    (editRedirect demoURLCheck "t1" "g" "s" (some renamePatch) demoStore).1 = 200 ∧
    (editRedirect demoURLCheck "t1" "g" "s" (some renamePatch) demoStore).2.store.records
        (makeKey (renamePatch.group.getD demoEntry.group)
          (renamePatch.slug.getD demoEntry.slug)) =
      some (RawRecord.good
        { target := demoEntry.target, group := renamePatch.group.getD demoEntry.group,
          slug := renamePatch.slug.getD demoEntry.slug, createdBy := demoEntry.createdBy,
          createdAt := demoEntry.createdAt, updatedAt := some "t1",
          title := demoEntry.title, notes := demoEntry.notes }) := by
  have hm := c6_rename_preserves_payload demoURLCheck "t1" "g" "s" renamePatch demoStore demoEntry
    (by decide) (by decide) (by decide) (by decide) (Or.inr (by decide)) (by decide) (by decide)
    (by decide) (by decide)
  exact ⟨by decide, hm.1, hm.2.1⟩

/-- Claim C7, counterexample: a patch whose target is the empty string —
present and not parseable as a URL — is not rejected: the update answers
200 and writes the empty target into the record. -/
theorem c7_empty_target_counterexample :
    demoURLCheck "" = false ∧
    (editRedirect demoURLCheck "t1" "g" "s" (some emptyTargetPatch) demoStore).1 = 200 ∧
    (editRedirect demoURLCheck "t1" "g" "s" (some emptyTargetPatch) demoStore).2.store.records
        "g/s" =
      some (RawRecord.good
        { target := "", group := "g", slug := "s", createdBy := "u1",
          createdAt := "t0", updatedAt := some "t1", title := none, notes := none }) := by
  decide

/-- Claim C7 (amended): on an existing key, an update whose patch holds a
present non-empty target failing URL parsing, or a present non-empty group
or slug failing pattern validation, answers BadRequest and performs no
store write; a present empty-string field bypasses validation. -/
theorem c7_nonempty_fields_validated (vu : String → Bool) (now g sl : String) (b : PatchBody)
    (s : Store) (parsed : RedirectEntry)
    (hrec : s.records (makeKey g sl) = some (RawRecord.good parsed))
    (hbad : badTargetField vu b = true ∨ badGroupField b = true ∨ badSlugField b = true) :
    editRedirect vu now g sl (some b) s = (400, Eff.start s) := by
  have hpe : patchIsEmpty b = false := by
    rcases hbad with hx | hx | hx
    · rcases ht2 : b.target with _ | t
      · rw [badTargetField, ht2] at hx
        simp at hx
      · simp [patchIsEmpty, ht2]
    · rcases hg2 : b.group with _ | t
      · rw [badGroupField, hg2] at hx
        simp at hx
      · simp [patchIsEmpty, hg2]
    · rcases hs2 : b.slug with _ | t
      · rw [badSlugField, hs2] at hx
        simp at hx
      · simp [patchIsEmpty, hs2]
  simp only [editRedirect, hrec, hpe, Bool.false_eq_true, if_false]
  rcases hbad with hx | hx | hx
  · simp [hx]
  · by_cases h1 : badTargetField vu b = true
    · simp [h1]
    · simp [h1, hx]
  · by_cases h1 : badTargetField vu b = true
    · simp [h1]
    · by_cases h2 : badGroupField b = true
      · simp [h1, h2]
      · simp [h1, h2, hx]

/-- Claim C7 (amended), witness: a non-empty invalid target is rejected
with no state change. -/
theorem c7_nonempty_fields_validated_witness :
    badTargetField demoURLCheck invalidTargetPatch = true ∧
    editRedirect demoURLCheck "t1" "g" "s" (some invalidTargetPatch) demoStore =
      (400, Eff.start demoStore) :=
  ⟨by decide,
    c7_nonempty_fields_validated demoURLCheck "t1" "g" "s" invalidTargetPatch demoStore demoEntry
      (by decide) (Or.inl (by decide))⟩

/-- Claim C8: addToIndex is a no-op on a member; removeFromIndex on a
non-member preserves membership everywhere; both operations are idempotent
on the stored state; and both preserve freedom from duplicates. -/
theorem c8_index_ops_idempotent (e : Eff) (p v : String) :
    (v ∈ e.store.index p → addToIndex e p v = e) ∧
    (v ∉ e.store.index p →
      ∀ q x, x ∈ (removeFromIndex e p v).store.index q ↔ x ∈ e.store.index q) ∧
    addToIndex (addToIndex e p v) p v = addToIndex e p v ∧
    (removeFromIndex (removeFromIndex e p v) p v).store = (removeFromIndex e p v).store ∧
    ((∀ q, (e.store.index q).Nodup) →
      ∀ q, ((addToIndex e p v).store.index q).Nodup ∧
        ((removeFromIndex e p v).store.index q).Nodup) := by
  refine ⟨addToIndex_of_mem e p v, ?_, ?_, ?_, ?_⟩
  · intro hnm q x
    by_cases hq : q = p
    · subst hq
      rw [removeFromIndex_index_self]
      constructor
      · exact fun hx => List.mem_of_mem_filter hx
      · intro hx
        rw [List.mem_filter]
        refine ⟨hx, ?_⟩
        rw [bne_iff_ne]
        intro hxv
        exact hnm (hxv ▸ hx)
    · rw [removeFromIndex_index_ne _ _ _ _ hq]
  · by_cases hm : v ∈ e.store.index p
    · rw [addToIndex_of_mem e p v hm, addToIndex_of_mem e p v hm]
    · apply addToIndex_of_mem
      rw [addToIndex_index_self e p v hm]
      simp
  · ext q
    · rfl
    · rfl
    · by_cases hq : q = p
      · subst hq
        rw [removeFromIndex_index_self, removeFromIndex_index_self]
        simp [List.filter_filter]
      · rw [removeFromIndex_index_ne _ _ _ _ hq, removeFromIndex_index_ne _ _ _ _ hq]
  · intro hnd q
    constructor
    · by_cases hm : v ∈ e.store.index p
      · rw [addToIndex_of_mem e p v hm]
        exact hnd q
      · by_cases hq : q = p
        · subst hq
          rw [addToIndex_index_self e q v hm]
          exact nodup_append_single _ _ (hnd q) hm
        · rw [addToIndex_index_ne _ _ _ _ hq]
          exact hnd q
    · by_cases hq : q = p
      · subst hq
        rw [removeFromIndex_index_self]
        exact List.Nodup.filter _ (hnd q)
      · rw [removeFromIndex_index_ne _ _ _ _ hq]
        exact hnd q

/-- Claim C8, witness: adding an existing member of the demo global
partition is a no-op. -/
theorem c8_index_ops_idempotent_witness :
    ("g/s" ∈ (Eff.start demoStore).store.index "__ALL__") ∧
    addToIndex (Eff.start demoStore) "__ALL__" "g/s" = Eff.start demoStore :=
  ⟨by decide, (c8_index_ops_idempotent (Eff.start demoStore) "__ALL__" "g/s").1 (by decide)⟩

/-- Claim C9: over a global partition whose members all have parseable or
absent records, every page between 1 and totalPages reports the partition
size as totalItems and the ceiling of size over pageSize as totalPages, and
the page key slices for pages 1 through totalPages concatenate back to the
exact partition membership — no duplicates, no omissions. -/
theorem c9_pagination_exact (s : Store) (k : Nat) (hk : 0 < k)
    (hgood : ∀ m ∈ s.index "__ALL__", recordIsBad (s.records m) = false) :
    (∀ p, 1 ≤ p → p ≤ ((s.index "__ALL__").length + k - 1) / k →
      listRedirects s p k = ListOutcome.ok p k (s.index "__ALL__").length
        (((s.index "__ALL__").length + k - 1) / k)
        ((listPageKeys s p k).map (fun m => (m, parsedData (s.records m))))) ∧
    (List.range (((s.index "__ALL__").length + k - 1) / k)).flatMap
      (fun i => listPageKeys s (i + 1) k) = s.index "__ALL__" := by
  constructor
  · intro p hp1 hp2
    have hany : (listPageKeys s p k).any (fun q => recordIsBad (s.records q)) = false := by
      rw [List.any_eq_false]
      intro m hm
      have hmem : m ∈ s.index "__ALL__" :=
        List.mem_of_mem_drop (List.mem_of_mem_take hm)
      rw [hgood m hmem]
      simp
    simp [listRedirects, hany]
  · have hpk : (fun i => listPageKeys s (i + 1) k) =
        (fun i => ((s.index "__ALL__").drop (i * k)).take k) := by
      funext i
      simp [listPageKeys]
    rw [hpk]
    exact chunks_join (s.index "__ALL__").length (s.index "__ALL__") k hk rfl

/-- Claim C9, witness: a three-member partition with page size two gives
two pages that concatenate to the full membership. -/
theorem c9_pagination_exact_witness :
    (0 : Nat) < 2 ∧
    listRedirects pagedStore 1 2 = ListOutcome.ok 1 2 (pagedStore.index "__ALL__").length
      (((pagedStore.index "__ALL__").length + 2 - 1) / 2)
      ((listPageKeys pagedStore 1 2).map (fun m => (m, parsedData (pagedStore.records m)))) ∧
    (List.range (((pagedStore.index "__ALL__").length + 2 - 1) / 2)).flatMap
      (fun i => listPageKeys pagedStore (i + 1) 2) = pagedStore.index "__ALL__" := by
  have hm := c9_pagination_exact pagedStore 2 (by decide) (by decide)
  exact ⟨by decide, hm.1 1 (by decide) (by decide), hm.2⟩

/-- Claim C10: a successful update — same-key or rename — stores at the
resolved key the merged record, whose createdBy equals the pre-edit value:
ownership cannot be reassigned through the update surface, whatever
createdBy value the patch body carries. -/
theorem c10_owner_immutable (vu : String → Bool) (now g sl : String) (b : PatchBody) (s : Store)
    (parsed : RedirectEntry) (e : Eff)
    (hrec : s.records (makeKey g sl) = some (RawRecord.good parsed))
    (h : editRedirect vu now g sl (some b) s = (200, e)) :
    e.store.records (makeKey (b.group.getD parsed.group) (b.slug.getD parsed.slug)) =
      some (RawRecord.good (mergeEntry now parsed b)) ∧
    (mergeEntry now parsed b).createdBy = parsed.createdBy := by
  refine ⟨?_, rfl⟩
  simp only [editRedirect, hrec] at h
  split at h
  · simp at h
  · split at h
    · simp at h
    · split at h
      · simp at h
      · split at h
        · simp at h
        · split at h
          · simp at h
          · split at h
            · rename_i hkeq
              injection h with h1 h2
              subst h2
              rw [hkeq]
              exact putRecord_records_self _ _ _
            · rename_i hkne
              injection h with h1 h2
              subst h2
              rw [addToIndex_records, removeFromIndex_records, addToIndex_records,
                removeFromIndex_records]
              split
              · split
                · rw [moveRecords_eq]
                  simp [hkne]
                · rw [deleteClicks_records, putClicks_records, moveRecords_eq]
                  simp [hkne]
              · rw [moveRecords_eq]
                simp [hkne]

/-- Claim C10, witness: a patch smuggling in a createdBy value leaves the
stored owner unchanged. -/
theorem c10_owner_immutable_witness :
    demoStore.records (makeKey "g" "s") = some (RawRecord.good demoEntry) ∧
    (editRedirect demoURLCheck "t1" "g" "s" (some ownerPatch) demoStore).2.store.records
        (makeKey (ownerPatch.group.getD demoEntry.group)
          (ownerPatch.slug.getD demoEntry.slug)) =
      some (RawRecord.good (mergeEntry "t1" demoEntry ownerPatch)) ∧
    (mergeEntry "t1" demoEntry ownerPatch).createdBy = demoEntry.createdBy := by
  have heq : editRedirect demoURLCheck "t1" "g" "s" (some ownerPatch) demoStore =
      (200, (editRedirect demoURLCheck "t1" "g" "s" (some ownerPatch) demoStore).2) :=
    Prod.ext (by decide) rfl
  have hm := c10_owner_immutable demoURLCheck "t1" "g" "s" ownerPatch demoStore demoEntry _
    (by decide) heq
  exact ⟨by decide, hm.1, hm.2⟩
